import Mathlib

/-!
# Verification of the kis-quant backtest core

A shallow embedding of the backtest engine (`src/server/src/backtest/engine.py`),
the technical-indicator library (`indicators.py`) and the performance-metrics
calculator (`metrics.py`), together with theorems settling the specification
claims about them.

Modelling conventions:
* Python `Decimal` / `float` arithmetic is modelled over `ℚ` (the spec's
  "exact decimal" numeric policy); IEEE `NaN` entries of indicator series are
  modelled as `none` in `Option ℚ`, and every comparison against `none` is
  `false`, matching IEEE comparison semantics with `NaN`.
* The transcendental float operations `x ** y` (for the annualised return) and
  `sqrt` (for the volatility) are abstracted as explicit function parameters
  `powf`, `sqrtf`: they are fixed deterministic functions of their inputs.
* Python dictionaries keyed by strings become association lists
  `List (String × _)` with `List.lookup`; absent optional dict entries become
  `Option` fields.
* `int(x)` on a nonnegative exact decimal is truncation toward zero (`pyTrunc`),
  and Python `//` is floor division (`Int.fdiv`).
-/

namespace KisQuant

/-- An indicator value series: one entry per bar, `none` for an undefined
(`NaN`) entry. -/
abbrev Series := List (Option ℚ)

/-- Parameters naming one indicator, as in a strategy condition
(`leftIndicator` / `rightIndicator` configuration dicts). -/
structure IndicatorRef where
  type : String
  period : Option ℤ := none
  fastPeriod : Option ℤ := none
  slowPeriod : Option ℤ := none
  signalPeriod : Option ℤ := none
  stdDev : Option ℤ := none
  deriving Repr, DecidableEq

/-- One boolean trading rule (`Condition` dict): a left indicator, a
comparison operator string, and either a right indicator or a literal value
(`condition.get('value', 0)` when absent). -/
structure Condition where
  leftIndicator : IndicatorRef
  operator : String
  rightIndicator : Option IndicatorRef := none
  value : Option ℚ := none
  deriving Repr, DecidableEq

/-- A group of conditions combined with an `"AND"` / `"OR"` operator string. -/
structure ConditionGroup where
  operator : String
  conditions : List Condition
  deriving Repr, DecidableEq

/-- The `riskManagement` sub-dict of a strategy; the engine reads the key
`maxPosition` (the spec calls it `maxPositionPct`), defaulting to 100. -/
structure RiskManagement where
  maxPosition : Option ℚ := none
  deriving Repr, DecidableEq

/-- A strategy descriptor (required fields of `_validate_inputs` plus the
optional `riskManagement` dict). -/
structure Strategy where
  id : String
  name : String
  symbols : List String
  buyConditions : List ConditionGroup
  sellConditions : List ConditionGroup
  riskManagement : Option RiskManagement := none
  deriving Repr, DecidableEq

/-- The backtest configuration (`config` dict): dates in epoch millis,
commission and slippage in percent. -/
structure BacktestConfig where
  startDate : ℤ
  endDate : ℤ
  initialCapital : ℚ
  commission : ℚ
  slippage : ℚ
  deriving Repr, DecidableEq

/-- One daily OHLCV bar; `date` is epoch millis. -/
structure Bar where
  date : ℤ
  open_ : ℚ
  high : ℚ
  low : ℚ
  close : ℚ
  volume : ℚ
  symbol : String
  deriving Repr, DecidableEq

/-- A ledger entry. `pnl` / `holdingPeriod` are present on SELL trades only
(the Python dict carries those keys only there). -/
structure Trade where
  id : String
  symbol : String
  type : String
  quantity : ℤ
  price : ℚ
  timestamp : ℤ
  pnl : Option ℚ := none
  holdingPeriod : Option ℤ := none
  deriving Repr, DecidableEq

/-- One equity-curve snapshot appended per simulated day. -/
structure DailyReturn where
  date : ℤ
  portfolioValue : ℚ
  dailyReturn : ℚ
  cumulativeReturn : ℚ
  deriving Repr, DecidableEq, Inhabited

/-- `_get_indicator_key`: the cache key derived from an indicator's type and
optional parameters. -/
def getIndicatorKey (c : IndicatorRef) : String :=
  c.type
    ++ (match c.period with | some p => "_period_" ++ toString p | none => "")
    ++ (match c.fastPeriod with | some p => "_fast_" ++ toString p | none => "")
    ++ (match c.slowPeriod with | some p => "_slow_" ++ toString p | none => "")
    ++ (match c.signalPeriod with | some p => "_signal_" ++ toString p | none => "")
    ++ (match c.stdDev with | some p => "_std_" ++ toString p | none => "")

/-- Lift a comparison to possibly-undefined (`NaN`) operands: any comparison
involving an undefined value is `false`, as for IEEE `NaN`. -/
def optCmp (f : ℚ → ℚ → Bool) : Option ℚ → Option ℚ → Bool
  | some a, some b => f a b
  | _, _ => false

/-- `_evaluate_single_condition`: evaluate one condition at `currentIndex`
against the per-symbol indicator series map. Total: every failure mode
(missing key, out-of-range index, undefined value, unknown operator) yields
`false`, mirroring the guards and the catch-all `except` of the source. -/
def evaluateSingleCondition (condition : Condition)
    (indicators : List (String × Series)) (currentIndex : ℕ) : Bool :=
  match indicators.lookup (getIndicatorKey condition.leftIndicator) with
  | none => false
  | some leftValues =>
    if leftValues.length ≤ currentIndex ∨ currentIndex < 1 then false
    else
      let leftCurrent : Option ℚ := (leftValues.get? currentIndex).getD none
      let op := condition.operator
      match condition.rightIndicator with
      | some ri =>
        match indicators.lookup (getIndicatorKey ri) with
        | none => false
        | some rightValues =>
          if rightValues.length ≤ currentIndex then false
          else
            let rightCurrent : Option ℚ := (rightValues.get? currentIndex).getD none
            if op = "CROSS_UP" ∨ op = "CROSS_DOWN" then
              if currentIndex < 1 then false
              else
                let leftPrev : Option ℚ := (leftValues.get? (currentIndex - 1)).getD none
                let rightPrev : Option ℚ := (rightValues.get? (currentIndex - 1)).getD none
                if op = "CROSS_UP" then
                  optCmp (fun a b => a ≤ b) leftPrev rightPrev
                    && optCmp (fun a b => b < a) leftCurrent rightCurrent
                else
                  optCmp (fun a b => b ≤ a) leftPrev rightPrev
                    && optCmp (fun a b => a < b) leftCurrent rightCurrent
            else
              compareValues op leftCurrent rightCurrent
      | none =>
        compareValues op leftCurrent (some (condition.value.getD 0))
where
  /-- The final comparison chain (`GT`/`GTE`/`LT`/`LTE`/`EQ`, else `false`). -/
  compareValues (op : String) (l r : Option ℚ) : Bool :=
    if op = "GT" then optCmp (fun a b => b < a) l r
    else if op = "GTE" then optCmp (fun a b => b ≤ a) l r
    else if op = "LT" then optCmp (fun a b => a < b) l r
    else if op = "LTE" then optCmp (fun a b => a ≤ b) l r
    else if op = "EQ" then optCmp (fun a b => |a - b| < 1 / 1000000) l r
    else false

/-- `_evaluate_condition_group`: `AND` = all conditions, `OR` = any condition,
any other group operator yields `false`. -/
def evaluateConditionGroup (group : ConditionGroup)
    (indicators : List (String × Series)) (currentIndex : ℕ) : Bool :=
  let results := group.conditions.map
    (fun c => evaluateSingleCondition c indicators currentIndex)
  if group.operator = "AND" then results.all (fun b => b)
  else if group.operator = "OR" then results.any (fun b => b)
  else false

/-- `_check_buy_signals`: the groups are OR'd together. -/
def checkBuySignals (buyConditions : List ConditionGroup)
    (indicators : List (String × Series)) (currentIndex : ℕ) : Bool :=
  buyConditions.any (fun g => evaluateConditionGroup g indicators currentIndex)

/-- `_check_sell_signals`: the groups are OR'd together. -/
def checkSellSignals (sellConditions : List ConditionGroup)
    (indicators : List (String × Series)) (currentIndex : ℕ) : Bool :=
  sellConditions.any (fun g => evaluateConditionGroup g indicators currentIndex)

/-- `_validate_inputs`: in this typed embedding every required field is
present by construction, so what remains are the date-order and capital
checks. The validator never inspects condition groups or their operators. -/
def validateInputs (_strategy : Strategy) (config : BacktestConfig) :
    Except String Unit :=
  if config.endDate ≤ config.startDate then
    Except.error "startDate is not before endDate"
  else if config.initialCapital ≤ 0 then
    Except.error "initialCapital must be positive"
  else Except.ok ()

/-- Python `int(x)` on an exact decimal: truncation toward zero. -/
def pyTrunc (x : ℚ) : ℤ :=
  if 0 ≤ x then ⌊x⌋ else -⌊-x⌋

/-- `positions[symbol] = v` on the insertion-ordered dict. -/
def setPos : List (String × ℤ) → String → ℤ → List (String × ℤ)
  | [], sym, v => [(sym, v)]
  | (s, q) :: rest, sym, v =>
    if s = sym then (s, v) :: rest else (s, q) :: setPos rest sym v

/-- The held quantity for a symbol: 0 when the symbol is absent from the
positions dict (`symbol not in positions or positions[symbol] == 0` is
exactly `posQty = 0`). -/
def posQty (positions : List (String × ℤ)) (sym : String) : ℤ :=
  (positions.lookup sym).getD 0

/-- Per-run constants of `_execute_backtest` (rates already divided by 100). -/
structure Env where
  strategy : Strategy
  initialCapital : ℚ
  commissionRate : ℚ
  slippageRate : ℚ
  marketData : List (String × List Bar)
  indicatorsData : List (String × List (String × Series))

/-- The mutable portfolio state of one run. -/
structure EngineState where
  cash : ℚ
  positions : List (String × ℤ)
  trades : List Trade
  dailyReturns : List DailyReturn
  deriving Repr

/-- `f"trade_{len(trades) + 1}"`. -/
def tradeId (n : ℕ) : String := "trade_" ++ toString n

/-- The effective max-position percentage:
`strategy.get('riskManagement', {}).get('maxPosition', 100)`. -/
def maxPositionOf (s : Strategy) : ℚ :=
  ((s.riskManagement.getD {}).maxPosition).getD 100

/-- The BUY branch body (engine lines 271-294): position sizing from cash and
the risk cap, then the affordability-guarded trade execution. Returns the
state unchanged when no trade executes. -/
def doBuy (env : Env) (st : EngineState) (sym : String) (date : ℤ)
    (currentPrice : ℚ) : EngineState :=
  let buyPrice := currentPrice * (1 + env.slippageRate)
  let maxShares := pyTrunc (st.cash / buyPrice)
  let positionLimit :=
    pyTrunc (env.initialCapital * maxPositionOf env.strategy / 100 / buyPrice)
  let shares := min maxShares positionLimit
  if 0 < shares then
    let totalCost := shares * buyPrice * (1 + env.commissionRate)
    if totalCost ≤ st.cash then
      { st with
        trades := st.trades ++
          [{ id := tradeId (st.trades.length + 1), symbol := sym,
             type := "BUY", quantity := shares, price := buyPrice,
             timestamp := date }],
        cash := st.cash - totalCost,
        positions := setPos st.positions sym shares }
    else st
  else st

/-- The SELL branch body (engine lines 299-326): full liquidation of the held
quantity, pnl against the most recent prior BUY for the symbol (pnl 0 and
holding period 0 when none is found). -/
def doSell (env : Env) (st : EngineState) (sym : String) (date : ℤ)
    (currentPrice : ℚ) : EngineState :=
  let sellPrice := currentPrice * (1 - env.slippageRate)
  let shares := posQty st.positions sym
  let totalReceived := shares * sellPrice * (1 - env.commissionRate)
  let buyTrade := st.trades.reverse.find?
    (fun t => t.symbol == sym && t.type == "BUY")
  let pnlHp : ℚ × ℤ :=
    match buyTrade with
    | some bt =>
      (totalReceived - shares * bt.price * (1 + env.commissionRate),
       Int.fdiv (date - bt.timestamp) 86400000)
    | none => (0, 0)
  { st with
    trades := st.trades ++
      [{ id := tradeId (st.trades.length + 1), symbol := sym,
         type := "SELL", quantity := shares, price := sellPrice,
         timestamp := date, pnl := some pnlHp.1,
         holdingPeriod := some pnlHp.2 }],
    cash := st.cash + totalReceived,
    positions := setPos st.positions sym 0 }

/-- One symbol's turn inside one day of the loop (engine lines 253-326):
skip when the symbol has no market data or no bar on the current date,
otherwise run the buy branch when flat and a buy group fires, or the sell
branch when long and a sell group fires. -/
def processSymbol (env : Env) (st : EngineState) (date : ℤ) (i : ℕ)
    (sym : String) : EngineState :=
  match env.marketData.lookup sym with
  | none => st
  | some symbolData =>
    let symbolIndicators := (env.indicatorsData.lookup sym).getD []
    match symbolData.find? (fun b => b.date == date) with
    | none => st
    | some row =>
      if posQty st.positions sym = 0 then
        if checkBuySignals env.strategy.buyConditions symbolIndicators i then
          doBuy env st sym date row.close
        else st
      else if 0 < posQty st.positions sym then
        if checkSellSignals env.strategy.sellConditions symbolIndicators i then
          doSell env st sym date row.close
        else st
      else st

/-- End-of-day portfolio value (engine lines 329-336): cash plus close value
of every open position with an available bar on the date. -/
def portfolioValue (env : Env) (st : EngineState) (date : ℤ) : ℚ :=
  st.positions.foldl
    (fun (acc : ℚ) (p : String × ℤ) =>
      if 0 < p.2 then
        match env.marketData.lookup p.1 with
        | some sd =>
          match sd.find? (fun b => b.date == date) with
          | some row => acc + (p.2 : ℚ) * row.close
          | none => acc
        | none => acc
      else acc)
    st.cash

/-- One day of the loop, driven by the `i`-th primary-symbol bar: every
symbol's buy/sell turn, then the equity-curve snapshot. -/
def processDay (env : Env) (st : EngineState) (p : ℕ × Bar) : EngineState :=
  let date := p.2.date
  let st1 := env.strategy.symbols.foldl
    (fun s sym => processSymbol env s date p.1 sym) st
  let pv := portfolioValue env st1 date
  let dailyReturn : ℚ :=
    if 0 < p.1 then
      match st1.dailyReturns.getLast? with
      | some prev => (pv / prev.portfolioValue - 1) * 100
      | none => 0
    else 0
  let cumulativeReturn := (pv / env.initialCapital - 1) * 100
  { st1 with
    dailyReturns := st1.dailyReturns ++
      [{ date := date, portfolioValue := pv, dailyReturn := dailyReturn,
         cumulativeReturn := cumulativeReturn }] }

/-- The initial portfolio state: all cash, no positions, empty ledgers. -/
def initState (env : Env) : EngineState :=
  { cash := env.initialCapital, positions := [], trades := [],
    dailyReturns := [] }

/-- Run a list of enumerated primary-symbol bars through the day loop. -/
def runDays (env : Env) (rows : List (ℕ × Bar)) : EngineState :=
  rows.foldl (processDay env) (initState env)

/-- The full simulation loop of `_execute_backtest`: the primary symbol's
(first listed) bars drive the day loop. -/
def executeBacktestState (env : Env) : EngineState :=
  let primaryData := (env.marketData.lookup (env.strategy.symbols.headD "")).getD []
  runDays env primaryData.enum

/-! ## Performance metrics (`metrics.py`) -/

/-- The flattened metrics record returned by `calculate_metrics`. -/
structure Metrics where
  totalReturn : ℚ
  annualizedReturn : ℚ
  volatility : ℚ
  sharpeRatio : ℚ
  maxDrawdown : ℚ
  totalTrades : ℕ
  winRate : ℚ
  avgProfit : ℚ
  avgLoss : ℚ
  deriving Repr, DecidableEq

/-- `_get_empty_metrics`. -/
def emptyMetrics : Metrics :=
  { totalReturn := 0, annualizedReturn := 0, volatility := 0,
    sharpeRatio := 0, maxDrawdown := 0, totalTrades := 0, winRate := 0,
    avgProfit := 0, avgLoss := 0 }

/-- Arithmetic mean over `ℚ`. -/
def listMean (xs : List ℚ) : ℚ := xs.sum / xs.length

/-- Bessel-corrected sample variance (the square of `np.std(xs, ddof=1)`). -/
def sampleVariance (xs : List ℚ) : ℚ :=
  let μ := listMean xs
  (xs.map (fun x => (x - μ) ^ 2)).sum / ((xs.length : ℚ) - 1)

/-- `_calculate_volatility`: annualised sample standard deviation of the
daily returns excluding day 0, in percent. `sqrtf` models float `sqrt`. -/
def calculateVolatility (sqrtf : ℚ → ℚ) (dailyReturns : List DailyReturn) : ℚ :=
  if dailyReturns.length < 2 then 0
  else
    let returns := (dailyReturns.drop 1).map (fun d => d.dailyReturn / 100)
    if returns = [] then 0
    else sqrtf (sampleVariance returns) * sqrtf 252 * 100

/-- `_calculate_sharpe_ratio`: excess over the fixed 3% risk-free rate per
unit volatility; 0 when volatility is 0. -/
def calculateSharpeRatio (_dailyReturns : List DailyReturn)
    (annualizedReturn volatility : ℚ) : ℚ :=
  if volatility = 0 then 0 else (annualizedReturn - 3) / volatility

/-- `_calculate_max_drawdown`: maximum percent decline from the running peak
portfolio value. -/
def calculateMaxDrawdown (dailyReturns : List DailyReturn) : ℚ :=
  if dailyReturns = [] then 0
  else
    let portfolioValues := dailyReturns.map (fun d => d.portfolioValue)
    (portfolioValues.foldl
      (fun (acc : ℚ × ℚ) v =>
        let peak := if acc.1 < v then v else acc.1
        let drawdown := (peak - v) / peak * 100
        (peak, if acc.2 < drawdown then drawdown else acc.2))
      (portfolioValues.headD 0, 0)).2

/-- The trade-statistics block of `_calculate_trade_statistics`. -/
structure TradeStats where
  totalTrades : ℕ
  winRate : ℚ
  avgProfit : ℚ
  avgLoss : ℚ
  deriving Repr, DecidableEq

/-- `_calculate_trade_statistics`: win rate and average profit/loss over the
SELL trades that carry a pnl. -/
def calculateTradeStatistics (trades : List Trade) (initialCapital : ℚ) :
    TradeStats :=
  if trades = [] then
    { totalTrades := 0, winRate := 0, avgProfit := 0, avgLoss := 0 }
  else
    let sellTrades := trades.filter (fun t => t.type == "SELL" && t.pnl.isSome)
    if sellTrades = [] then
      { totalTrades := trades.length, winRate := 0, avgProfit := 0,
        avgLoss := 0 }
    else
      let winningTrades := sellTrades.filter (fun t => 0 < t.pnl.getD 0)
      let losingTrades := sellTrades.filter (fun t => t.pnl.getD 0 < 0)
      let winRate := ((winningTrades.length : ℚ) / sellTrades.length) * 100
      let avgProfit :=
        if winningTrades = [] then 0
        else ((winningTrades.map (fun t => t.pnl.getD 0)).sum /
                winningTrades.length) / initialCapital * 100
      let avgLoss :=
        if losingTrades = [] then 0
        else ((losingTrades.map (fun t => |t.pnl.getD 0|)).sum /
                losingTrades.length) / initialCapital * 100
      { totalTrades := trades.length, winRate := winRate,
        avgProfit := avgProfit, avgLoss := avgLoss }

/-- `calculate_metrics`: all performance indicators from the finished equity
curve and trade ledger. `powf` models the float power `x ** y` used by the
annualised return; `sqrtf` models float `sqrt`. -/
def calculateMetrics (powf : ℚ → ℚ → ℚ) (sqrtf : ℚ → ℚ)
    (dailyReturns : List DailyReturn) (trades : List Trade)
    (initialCapital : ℚ) : Metrics :=
  if dailyReturns = [] then emptyMetrics
  else
    let finalValue := (dailyReturns.getLast?.getD default).portfolioValue
    let totalReturn := (finalValue / initialCapital - 1) * 100
    let tradingDays := dailyReturns.length
    let annualizedReturn :=
      if 0 < tradingDays then
        (powf (finalValue / initialCapital) (252 / (tradingDays : ℚ)) - 1) * 100
      else 0
    let volatility := calculateVolatility sqrtf dailyReturns
    let sharpeRatio := calculateSharpeRatio dailyReturns annualizedReturn volatility
    let maxDrawdown := calculateMaxDrawdown dailyReturns
    let tradeStats := calculateTradeStatistics trades initialCapital
    { totalReturn := totalReturn, annualizedReturn := annualizedReturn,
      volatility := volatility, sharpeRatio := sharpeRatio,
      maxDrawdown := maxDrawdown, totalTrades := tradeStats.totalTrades,
      winRate := tradeStats.winRate, avgProfit := tradeStats.avgProfit,
      avgLoss := tradeStats.avgLoss }

/-- A float value that may be the IEEE infinity sentinel, as returned by the
auxiliary ratio functions (`float('inf')`). -/
inductive ExtQ where
  | posInf : ExtQ
  | negInf : ExtQ
  | val : ℚ → ExtQ
  deriving Repr, DecidableEq

/-- `calculate_calmar_ratio`: annualised return over max drawdown; when the
drawdown is exactly 0, `float('inf')` for a positive annualised return and 0
otherwise. -/
def calculateCalmarRatio (dailyReturns : List DailyReturn)
    (annualizedReturn : ℚ) : ExtQ :=
  let maxDrawdown := calculateMaxDrawdown dailyReturns
  if maxDrawdown = 0 then
    if 0 < annualizedReturn then ExtQ.posInf else ExtQ.val 0
  else ExtQ.val (annualizedReturn / maxDrawdown)

/-- The full backtest result record assembled by `_execute_backtest`;
`now` is the wall-clock reading used for `id` and `createdAt`. -/
structure BacktestResult where
  id : String
  strategyId : String
  startDate : ℤ
  endDate : ℤ
  trades : List Trade
  dailyReturns : List DailyReturn
  createdAt : ℤ
  metrics : Metrics

/-- `_execute_backtest` end to end: run the day loop, compute the metrics,
assemble the result. The wall clock `now` feeds only `id` and `createdAt`. -/
def executeBacktest (powf : ℚ → ℚ → ℚ) (sqrtf : ℚ → ℚ) (strategy : Strategy)
    (config : BacktestConfig) (marketData : List (String × List Bar))
    (indicatorsData : List (String × List (String × Series))) (now : ℤ) :
    BacktestResult :=
  let env : Env :=
    { strategy := strategy, initialCapital := config.initialCapital,
      commissionRate := config.commission / 100,
      slippageRate := config.slippage / 100,
      marketData := marketData, indicatorsData := indicatorsData }
  let st := executeBacktestState env
  let metrics := calculateMetrics powf sqrtf st.dailyReturns st.trades
    config.initialCapital
  { id := "backtest_" ++ toString now, strategyId := strategy.id,
    startDate := config.startDate, endDate := config.endDate,
    trades := st.trades, dailyReturns := st.dailyReturns, createdAt := now,
    metrics := metrics }

/-! ## RSI (`indicators.py`) -/

/-- `data.diff()` at index `i`: `none` at index 0 (pandas `NaN`). -/
def rsiDelta (data : List ℚ) (i : ℕ) : Option ℚ :=
  if i = 0 then none
  else
    match data.get? i, data.get? (i - 1) with
    | some a, some b => some (a - b)
    | _, _ => none

/-- `delta.where(delta > 0, 0)` at index `i`: the positive delta, with both
the leading `NaN` and non-positive deltas replaced by 0 (`NaN > 0` is false). -/
def rsiGainAt (data : List ℚ) (i : ℕ) : ℚ :=
  match rsiDelta data i with
  | some d => if 0 < d then d else 0
  | none => 0

/-- `-delta.where(delta < 0, 0)` at index `i`: minus the negative delta, with
the leading `NaN` and non-negative deltas replaced by 0. -/
def rsiLossAt (data : List ℚ) (i : ℕ) : ℚ :=
  match rsiDelta data i with
  | some d => if d < 0 then -d else 0
  | none => 0

/-- `rolling(window=period).mean()` of the gain series at index `i`:
undefined until `period` observations accumulate. -/
def avgGain (data : List ℚ) (period : ℕ) (i : ℕ) : Option ℚ :=
  if i + 1 < period then none
  else some ((((List.range period).map (fun k => rsiGainAt data (i - k))).sum) / period)

/-- `rolling(window=period).mean()` of the loss series at index `i`. -/
def avgLoss (data : List ℚ) (period : ℕ) (i : ℕ) : Option ℚ :=
  if i + 1 < period then none
  else some ((((List.range period).map (fun k => rsiLossAt data (i - k))).sum) / period)

/-- `rsi` at index `i`: `RS = avgGain/avgLoss`, `RSI = 100 - 100/(1+RS)`.
In the source's float arithmetic, `avgLoss = 0` gives `RS = inf` and
`RSI = 100` when `avgGain > 0`, and `RS = NaN` (undefined RSI) when both
averages are 0; both are modelled explicitly here. -/
def rsi (data : List ℚ) (period : ℕ) (i : ℕ) : Option ℚ :=
  if data.length ≤ i then none
  else
    match avgGain data period i, avgLoss data period i with
    | some g, some l =>
      if l = 0 then (if g = 0 then none else some 100)
      else some (100 - 100 / (1 + g / l))
    | _, _ => none

/-! ## Spec-side definitions and invariants -/

/-- The spec's reading of `CROSS_UP` against a literal value: the right side
is the constant series of the literal, so the condition fires at `i` iff
`left[i-1] ≤ v` and `left[i] > v`. -/
def crossUpLiteralSpec (s : Series) (v : ℚ) (i : ℕ) : Prop :=
  ∃ a b, s.get? (i - 1) = some (some a) ∧ s.get? i = some (some b) ∧
    a ≤ v ∧ v < b

/-- The spec's BUY position-sizing formula:
`min(floor(cash/buyPrice), floor(initialCapital·maxPositionPct/100/buyPrice))`. -/
def specShares (cash initialCapital pct buyPrice : ℚ) : ℤ :=
  min ⌊cash / buyPrice⌋ ⌊initialCapital * pct / 100 / buyPrice⌋

/-- The cash/position safety invariant: cash is never negative and every
held quantity is nonnegative. -/
def PortfolioInv (st : EngineState) : Prop :=
  0 ≤ st.cash ∧ ∀ sym, 0 ≤ posQty st.positions sym

/-- Ledger coverage: every open position is backed by a BUY trade for that
symbol somewhere in the ledger. -/
def LedgerInv (st : EngineState) : Prop :=
  ∀ sym, 0 < posQty st.positions sym →
    ∃ t ∈ st.trades, t.symbol = sym ∧ t.type = "BUY"

/-- Domain constraints on a run's environment: commission and slippage are
genuine percentages (at most 100%, so the divided rates are at most 1), the
initial capital is nonnegative, and close prices are nonnegative. -/
def EnvOk (env : Env) : Prop :=
  env.commissionRate ≤ 1 ∧ env.slippageRate ≤ 1 ∧ 0 ≤ env.initialCapital ∧
  ∀ p ∈ env.marketData, ∀ b ∈ p.2, 0 ≤ b.close

/-! ## Concrete sample inputs used by the witnesses -/

/-- A flat OHLCV bar at a given date and close. -/
def mkBar (d : ℤ) (c : ℚ) : Bar :=
  { date := d, open_ := c, high := c, low := c, close := c, volume := 0,
    symbol := "A" }

/-- A one-symbol strategy: buy when PRICE > 50, sell when PRICE < 50. -/
def sampleStrategy : Strategy :=
  { id := "s1", name := "sample", symbols := ["A"],
    buyConditions :=
      [{ operator := "AND",
         conditions :=
           [{ leftIndicator := { type := "PRICE" }, operator := "GT",
              value := some 50 }] }],
    sellConditions :=
      [{ operator := "AND",
         conditions :=
           [{ leftIndicator := { type := "PRICE" }, operator := "LT",
              value := some 50 }] }] }

/-- Four days of bars for symbol `A`. -/
def sampleMarketData : List (String × List Bar) :=
  [("A", [mkBar 0 40, mkBar 1 100, mkBar 2 30, mkBar 3 60])]

/-- The PRICE series for symbol `A`, aligned with the bars. -/
def sampleIndicators : List (String × List (String × Series)) :=
  [("A", [("PRICE", [some 40, some 100, some 30, some 60])])]

/-- A zero-cost sample environment over the sample data. -/
def sampleEnv : Env :=
  { strategy := sampleStrategy, initialCapital := 1000, commissionRate := 0,
    slippageRate := 0, marketData := sampleMarketData,
    indicatorsData := sampleIndicators }

/-- A strategy whose only buy group uses the unknown operator `"XOR"`. -/
def strategyWithUnknownGroup : Strategy :=
  { id := "s2", name := "unknown-op", symbols := ["A"],
    buyConditions :=
      [{ operator := "XOR",
         conditions :=
           [{ leftIndicator := { type := "PRICE" }, operator := "GT",
              value := some 50 }] }],
    sellConditions := [] }

/-- A valid configuration (positive capital, ordered dates). -/
def sampleConfig : BacktestConfig :=
  { startDate := 0, endDate := 10, initialCapital := 1000,
    commission := 0, slippage := 0 }

/-- A two-point equity curve falling from 100 to 50 (drawdown 50%). -/
def sampleCurve : List DailyReturn :=
  [{ date := 0, portfolioValue := 100, dailyReturn := 0, cumulativeReturn := 0 },
   { date := 1, portfolioValue := 50, dailyReturn := -50, cumulativeReturn := -50 }]

/-! ## Helper lemmas -/

theorem optCmp_none_left (f : ℚ → ℚ → Bool) (r : Option ℚ) :
    optCmp f none r = false := by
  cases r <;> rfl

theorem optCmp_none_right (f : ℚ → ℚ → Bool) (l : Option ℚ) :
    optCmp f l none = false := by
  cases l <;> rfl

theorem optCmp_some_some (f : ℚ → ℚ → Bool) (a b : ℚ) :
    optCmp f (some a) (some b) = f a b := rfl

theorem compareValues_none_left (op : String) (r : Option ℚ) :
    evaluateSingleCondition.compareValues op none r = false := by
  unfold evaluateSingleCondition.compareValues
  split_ifs <;> simp [optCmp_none_left]

theorem compareValues_cross_up (l r : Option ℚ) :
    evaluateSingleCondition.compareValues "CROSS_UP" l r = false := by
  unfold evaluateSingleCondition.compareValues
  rw [if_neg (by decide), if_neg (by decide), if_neg (by decide),
    if_neg (by decide), if_neg (by decide)]

theorem evaluateSingleCondition_at_zero (cond : Condition)
    (ind : List (String × Series)) :
    evaluateSingleCondition cond ind 0 = false := by
  unfold evaluateSingleCondition
  cases h : ind.lookup (getIndicatorKey cond.leftIndicator) with
  | none => rfl
  | some ls => simp

theorem foldlPreserves {σ α : Type} (P : σ → Prop) (f : σ → α → σ)
    (hf : ∀ s a, P s → P (f s a)) :
    ∀ (l : List α) (s : σ), P s → P (l.foldl f s)
  | [], _, h => h
  | a :: l, s, h => foldlPreserves P f hf l (f s a) (hf s a h)

theorem lookup_setPos_self (ps : List (String × ℤ)) (sym : String) (v : ℤ) :
    (setPos ps sym v).lookup sym = some v := by
  induction ps with
  | nil => simp [setPos, List.lookup]
  | cons p rest ih =>
    by_cases hs : p.1 = sym
    · simp [setPos, hs, List.lookup]
    · have hb : (sym == p.1) = false := by simp [Ne.symm hs]
      simp [setPos, hs, List.lookup, hb, ih]

theorem lookup_setPos_ne (ps : List (String × ℤ)) (sym sym' : String)
    (v : ℤ) (h : sym' ≠ sym) :
    (setPos ps sym v).lookup sym' = ps.lookup sym' := by
  have hb : (sym' == sym) = false := by simp [h]
  induction ps with
  | nil => simp [setPos, List.lookup, hb]
  | cons p rest ih =>
    by_cases hs : p.1 = sym
    · subst hs
      simp [setPos, List.lookup, hb]
    · by_cases hs' : p.1 = sym'
      · simp [setPos, hs, hs', List.lookup, h]
      · have hb' : (sym' == p.1) = false := by simp [Ne.symm hs']
        simp [setPos, hs, List.lookup, hb', ih]

theorem posQty_setPos_self (ps : List (String × ℤ)) (sym : String) (v : ℤ) :
    posQty (setPos ps sym v) sym = v := by
  rw [posQty, lookup_setPos_self]; rfl

theorem posQty_setPos_ne (ps : List (String × ℤ)) (sym sym' : String)
    (v : ℤ) (h : sym' ≠ sym) :
    posQty (setPos ps sym v) sym' = posQty ps sym' := by
  rw [posQty, lookup_setPos_ne _ _ _ _ h, posQty]

theorem lookup_mem {β : Type} (l : List (String × β)) (a : String) (b : β)
    (h : l.lookup a = some b) : (a, b) ∈ l := by
  induction l with
  | nil => simp [List.lookup] at h
  | cons p rest ih =>
    rcases p with ⟨k, v⟩
    by_cases hk : k = a
    · subst hk
      simp [List.lookup] at h
      simp [h]
    · have hb : (a == k) = false := by simp [Ne.symm hk]
      simp [List.lookup, hb] at h
      exact List.mem_cons_of_mem _ (ih h)

/-! ## C4 -/

/-- C4: condition evaluation is total and soft-fails to `false`: index 0,
a missing left or right indicator key, an out-of-range index, and an
undefined (`NaN`) left value all evaluate to `false` rather than aborting
the run (the source's catch-all `except` is modelled by totality of
`evaluateSingleCondition`). -/
theorem condition_eval_soft_fail (cond : Condition)
    (ind : List (String × Series)) :
    (evaluateSingleCondition cond ind 0 = false) ∧
    (∀ i, ind.lookup (getIndicatorKey cond.leftIndicator) = none →
      evaluateSingleCondition cond ind i = false) ∧
    (∀ i ls, ind.lookup (getIndicatorKey cond.leftIndicator) = some ls →
      ls.length ≤ i → evaluateSingleCondition cond ind i = false) ∧
    (∀ i ls, ind.lookup (getIndicatorKey cond.leftIndicator) = some ls →
      ls.get? i = some none → evaluateSingleCondition cond ind i = false) ∧
    (∀ i ri, cond.rightIndicator = some ri →
      ind.lookup (getIndicatorKey ri) = none →
      evaluateSingleCondition cond ind i = false) := by
  refine ⟨?_, ?_, ?_, ?_, ?_⟩
  · exact evaluateSingleCondition_at_zero cond ind
  · intro i h
    unfold evaluateSingleCondition
    rw [h]
  · intro i ls h hlen
    unfold evaluateSingleCondition
    rw [h]
    simp [hlen]
  · intro i ls h hv
    unfold evaluateSingleCondition
    simp only [h, hv, Option.getD_some]
    split
    · rfl
    · split
      · split
        · rfl
        · split
          · rfl
          · split
            · split
              · rfl
              · split <;> simp [optCmp_none_left]
            · exact compareValues_none_left _ _
      · exact compareValues_none_left _ _
  · intro i ri hri hrk
    unfold evaluateSingleCondition
    cases h : ind.lookup (getIndicatorKey cond.leftIndicator) with
    | none => rfl
    | some ls =>
      simp only [h]
      by_cases hlen : ls.length ≤ i ∨ i < 1
      · rw [if_pos hlen]
      · rw [if_neg hlen]
        simp only [hri, hrk]

/-- Witness for C4: a missing left indicator key evaluates to `false` at a
concrete condition and indicator map. -/
theorem condition_eval_soft_fail_witness :
    evaluateSingleCondition
      { leftIndicator := { type := "SMA", period := some 20 },
        operator := "GT", value := some 1 } [] 3 = false :=
  (condition_eval_soft_fail _ _).2.1 3 rfl

/-! ## C3 -/

/-- C3 counterexample: with a literal right value, the claimed constant-series
cross semantics holds at this input (`left` goes from 0 to 10 across the
literal 5), yet the evaluator returns `false`: the source only gives
`CROSS_UP` cross semantics when a right indicator is referenced; with a
literal it falls through the `GT`/`GTE`/`LT`/`LTE`/`EQ` chain to `false`. -/
theorem cross_up_literal_counterexample :
    crossUpLiteralSpec [some 0, some 10] 5 1 ∧
    evaluateSingleCondition
      { leftIndicator := { type := "PRICE" }, operator := "CROSS_UP",
        value := some 5 }
      [("PRICE", [some 0, some 10])] 1 = false := by
  constructor
  · exact ⟨0, 10, rfl, rfl, by norm_num, by norm_num⟩
  · rfl

/-- C3 amended: a `CROSS_UP` condition never fires at index 0; with a literal
right value it never fires at all; with a referenced right indicator whose
series are present and defined at `i-1` and `i`, it fires iff
`left[i-1] ≤ right[i-1]` and `left[i] > right[i]`. -/
theorem cross_up_semantics (cond : Condition)
    (hop : cond.operator = "CROSS_UP") :
    (∀ ind, evaluateSingleCondition cond ind 0 = false) ∧
    (cond.rightIndicator = none →
      ∀ ind i, evaluateSingleCondition cond ind i = false) ∧
    (∀ ri, cond.rightIndicator = some ri →
      ∀ ind (i : ℕ) ls rs lp lc rp rc,
        ind.lookup (getIndicatorKey cond.leftIndicator) = some ls →
        ind.lookup (getIndicatorKey ri) = some rs →
        1 ≤ i → i < ls.length → i < rs.length →
        ls.get? (i - 1) = some (some lp) → ls.get? i = some (some lc) →
        rs.get? (i - 1) = some (some rp) → rs.get? i = some (some rc) →
        (evaluateSingleCondition cond ind i = true ↔ (lp ≤ rp ∧ rc < lc))) := by
  refine ⟨?_, ?_, ?_⟩
  · intro ind
    exact evaluateSingleCondition_at_zero cond ind
  · intro hri ind i
    unfold evaluateSingleCondition
    cases h : ind.lookup (getIndicatorKey cond.leftIndicator) with
    | none => rfl
    | some ls =>
      simp only [h]
      by_cases hlen : ls.length ≤ i ∨ i < 1
      · rw [if_pos hlen]
      · rw [if_neg hlen]
        simp only [hri]
        rw [hop]
        exact compareValues_cross_up _ _
  · intro ri hri ind i ls rs lp lc rp rc hls hrs h1 hil hir hlp hlc hrp hrc
    unfold evaluateSingleCondition
    simp only [hls, hri, hrs, hlp, hlc, hrp, hrc, Option.getD_some]
    rw [if_neg (by omega : ¬(ls.length ≤ i ∨ i < 1)),
      if_neg (by omega : ¬rs.length ≤ i), hop]
    rw [if_pos (Or.inl rfl), if_neg (by omega : ¬i < 1), if_pos rfl]
    simp [optCmp_some_some]

/-- Witness for C3 (amended): `PRICE` crossing up over `VOLUME` at index 1 in
a concrete two-bar indicator map fires. -/
theorem cross_up_semantics_witness :
    evaluateSingleCondition
      { leftIndicator := { type := "PRICE" }, operator := "CROSS_UP",
        rightIndicator := some { type := "VOLUME" } }
      [("PRICE", [some 1, some 5]), ("VOLUME", [some 2, some 3])] 1 = true :=
  ((cross_up_semantics
      { leftIndicator := { type := "PRICE" }, operator := "CROSS_UP",
        rightIndicator := some { type := "VOLUME" } } rfl).2.2
    { type := "VOLUME" } rfl
    [("PRICE", [some 1, some 5]), ("VOLUME", [some 2, some 3])] 1
    [some 1, some 5] [some 2, some 3] 1 5 2 3 rfl rfl
    (by norm_num) (by decide) (by decide) rfl rfl rfl rfl).mpr
    ⟨by norm_num, by norm_num⟩

/-! ## C10 -/

/-- C10: a condition group whose operator is neither `"AND"` nor `"OR"`
evaluates to `false` (the final `else` of `_evaluate_condition_group`) rather
than raising, and input validation accepts a strategy containing such a
group together with a valid configuration: `_validate_inputs` checks only
field presence, date order and capital, never group operators. -/
theorem unknown_group_operator_is_false :
    (∀ (group : ConditionGroup) (ind : List (String × Series)) (i : ℕ),
      group.operator ≠ "AND" → group.operator ≠ "OR" →
      evaluateConditionGroup group ind i = false) ∧
    validateInputs strategyWithUnknownGroup sampleConfig = Except.ok () := by
  constructor
  · intro group ind i hand hor
    unfold evaluateConditionGroup
    rw [if_neg hand, if_neg hor]
  · rfl

/-- Witness for C10: a concrete `"XOR"` group evaluates to `false`. -/
theorem unknown_group_operator_is_false_witness :
    evaluateConditionGroup
      { operator := "XOR", conditions := [] } [] 0 = false :=
  unknown_group_operator_is_false.1
    { operator := "XOR", conditions := [] } [] 0 (by decide) (by decide)

/-! ## C6 -/

theorem rsiGainAt_nonneg (data : List ℚ) (i : ℕ) : 0 ≤ rsiGainAt data i := by
  unfold rsiGainAt
  split
  · split_ifs with h
    · linarith
    · exact le_refl 0
  · exact le_refl 0

theorem rsiLossAt_nonneg (data : List ℚ) (i : ℕ) : 0 ≤ rsiLossAt data i := by
  unfold rsiLossAt
  split
  · split_ifs with h
    · linarith
    · exact le_refl 0
  · exact le_refl 0

theorem avgGain_nonneg (data : List ℚ) (period i : ℕ) (g : ℚ)
    (h : avgGain data period i = some g) : 0 ≤ g := by
  unfold avgGain at h
  split at h
  · exact absurd h (by simp)
  · have hs : 0 ≤ ((List.range period).map (fun k => rsiGainAt data (i - k))).sum := by
      apply List.sum_nonneg
      intro x hx
      obtain ⟨k, _, rfl⟩ := List.mem_map.mp hx
      exact rsiGainAt_nonneg data (i - k)
    injection h with h
    rw [← h]
    exact div_nonneg hs (Nat.cast_nonneg period)

theorem avgLoss_nonneg (data : List ℚ) (period i : ℕ) (l : ℚ)
    (h : avgLoss data period i = some l) : 0 ≤ l := by
  unfold avgLoss at h
  split at h
  · exact absurd h (by simp)
  · have hs : 0 ≤ ((List.range period).map (fun k => rsiLossAt data (i - k))).sum := by
      apply List.sum_nonneg
      intro x hx
      obtain ⟨k, _, rfl⟩ := List.mem_map.mp hx
      exact rsiLossAt_nonneg data (i - k)
    injection h with h
    rw [← h]
    exact div_nonneg hs (Nat.cast_nonneg period)

/-- C6: whenever the RSI is defined it lies in `[0, 100]`, and it is exactly
100 whenever the trailing rolling mean of losses is 0 (and the RSI is
defined there). -/
theorem rsi_bounds (data : List ℚ) (period i : ℕ) (r : ℚ)
    (_hp : 0 < period) (h : rsi data period i = some r) :
    (0 ≤ r ∧ r ≤ 100) ∧ (avgLoss data period i = some 0 → r = 100) := by
  unfold rsi at h
  split at h
  · exact absurd h (by simp)
  · cases hg : avgGain data period i with
    | none => rw [hg] at h; simp at h
    | some g =>
      cases hl : avgLoss data period i with
      | none => rw [hg, hl] at h; simp at h
      | some l =>
        simp only [hg, hl] at h
        have hg0 : 0 ≤ g := avgGain_nonneg _ _ _ _ hg
        have hl0 : 0 ≤ l := avgLoss_nonneg _ _ _ _ hl
        split_ifs at h with h1 h2
        · injection h with h
          subst h
          exact ⟨⟨by norm_num, le_refl 100⟩, fun _ => rfl⟩
        · injection h with h
          subst h
          have hlpos : 0 < l := lt_of_le_of_ne hl0 (Ne.symm h1)
          have hx : 0 ≤ g / l := div_nonneg hg0 hl0
          have hqpos : 0 < 100 / (1 + g / l) := by positivity
          have hqle : 100 / (1 + g / l) ≤ 100 :=
            div_le_self (by norm_num) (by linarith)
          constructor
          · exact ⟨by linarith, by linarith⟩
          · intro hz
            exact absurd (Option.some.inj hz) h1

/-- Witness for C6: on prices `[1, 2, 3]` with period 2 the RSI at index 2
is defined (all gains, no losses), so the theorem applies with value 100. -/
theorem rsi_bounds_witness :
    ((0:ℚ) ≤ 100 ∧ (100:ℚ) ≤ 100) ∧
    (avgLoss [1, 2, 3] 2 2 = some 0 → (100:ℚ) = 100) :=
  rsi_bounds [1, 2, 3] 2 2 100 (by norm_num)
    (by norm_num [rsi, avgGain, avgLoss, rsiGainAt, rsiLossAt, rsiDelta,
      List.range_succ])

/-! ## C7 -/

/-- C7 counterexample: with an empty equity curve the max drawdown is exactly
0 and the annualised return is negative, yet the code returns the finite
value 0, not the claimed negative-infinity sentinel: the source returns
`float('inf')` only for a positive annualised return and `0` otherwise. -/
theorem calmar_ratio_counterexample :
    calculateMaxDrawdown [] = 0 ∧
    calculateCalmarRatio [] (-5) = ExtQ.val 0 ∧
    calculateCalmarRatio [] (-5) ≠ ExtQ.negInf := by
  refine ⟨rfl, rfl, ?_⟩
  intro h
  exact absurd h (by decide)

/-- C7 amended: the Calmar ratio is `annualizedReturn/maxDrawdown` whenever
the max drawdown is nonzero; when the max drawdown is exactly 0 it is the
positive-infinity sentinel for a positive annualised return and the finite
value 0 otherwise (never a negative-infinity sentinel). -/
theorem calmar_ratio_characterization (dr : List DailyReturn) (a : ℚ) :
    (calculateMaxDrawdown dr ≠ 0 →
      calculateCalmarRatio dr a = ExtQ.val (a / calculateMaxDrawdown dr)) ∧
    (calculateMaxDrawdown dr = 0 → 0 < a →
      calculateCalmarRatio dr a = ExtQ.posInf) ∧
    (calculateMaxDrawdown dr = 0 → a ≤ 0 →
      calculateCalmarRatio dr a = ExtQ.val 0) := by
  refine ⟨?_, ?_, ?_⟩
  · intro h
    unfold calculateCalmarRatio
    rw [if_neg h]
  · intro h ha
    unfold calculateCalmarRatio
    rw [if_pos h, if_pos ha]
  · intro h ha
    unfold calculateCalmarRatio
    rw [if_pos h, if_neg (not_lt.mpr ha)]

/-- Witness for C7 (amended): on the falling sample curve the max drawdown is
50, so the Calmar ratio at annualised return 25 is the plain quotient. -/
theorem calmar_ratio_characterization_witness :
    calculateCalmarRatio sampleCurve 25 =
      ExtQ.val (25 / calculateMaxDrawdown sampleCurve) :=
  (calmar_ratio_characterization sampleCurve 25).1
    (by norm_num [calculateMaxDrawdown, sampleCurve]
        exact List.cons_ne_nil _ _)


/-! ## C8 -/

/-- C8: two runs over identical strategy, configuration and input bars yield
identical trade ledgers, equity curves and metrics. The only run-varying
input of `_execute_backtest` is the wall clock (used for the result `id` and
`createdAt`); the ledger, the equity curve and every metric are independent
of it, and the float `pow`/`sqrt` operations are fixed functions of their
arguments. -/
theorem backtest_deterministic (powf : ℚ → ℚ → ℚ) (sqrtf : ℚ → ℚ)
    (strategy : Strategy) (config : BacktestConfig)
    (marketData : List (String × List Bar))
    (indicatorsData : List (String × List (String × Series)))
    (now₁ now₂ : ℤ) :
    (executeBacktest powf sqrtf strategy config marketData indicatorsData
        now₁).trades =
      (executeBacktest powf sqrtf strategy config marketData indicatorsData
        now₂).trades ∧
    (executeBacktest powf sqrtf strategy config marketData indicatorsData
        now₁).dailyReturns =
      (executeBacktest powf sqrtf strategy config marketData indicatorsData
        now₂).dailyReturns ∧
    (executeBacktest powf sqrtf strategy config marketData indicatorsData
        now₁).metrics =
      (executeBacktest powf sqrtf strategy config marketData indicatorsData
        now₂).metrics :=
  ⟨rfl, rfl, rfl⟩


/-! ## Engine invariant lemmas -/

theorem doBuy_portfolioInv (env : Env) (st : EngineState) (sym : String)
    (date : ℤ) (price : ℚ) (h : PortfolioInv st) :
    PortfolioInv (doBuy env st sym date price) := by
  obtain ⟨h1, h2⟩ := h
  simp only [doBuy]
  split
  next hsh =>
    split
    next hc =>
      constructor
      · simp only
        linarith
      · intro sym2
        by_cases he : sym2 = sym
        · subst he
          simp only [posQty_setPos_self]
          linarith
        · simp only [posQty_setPos_ne _ _ _ _ he]
          exact h2 sym2
    next => exact ⟨h1, h2⟩
  next => exact ⟨h1, h2⟩

theorem doSell_portfolioInv (env : Env) (st : EngineState) (sym : String)
    (date : ℤ) (price : ℚ) (hcomm : env.commissionRate ≤ 1)
    (hslip : env.slippageRate ≤ 1) (hprice : 0 ≤ price)
    (h : PortfolioInv st) : PortfolioInv (doSell env st sym date price) := by
  obtain ⟨h1, h2⟩ := h
  have hq : (0:ℚ) ≤ (posQty st.positions sym : ℚ) := by
    exact_mod_cast h2 sym
  have hrecv : 0 ≤ (posQty st.positions sym : ℚ) *
      (price * (1 - env.slippageRate)) * (1 - env.commissionRate) := by
    apply mul_nonneg
    · exact mul_nonneg hq (mul_nonneg hprice (by linarith))
    · linarith
  constructor
  · simp only [doSell]
    linarith
  · intro sym2
    simp only [doSell]
    by_cases he : sym2 = sym
    · subst he
      simp only [posQty_setPos_self]
      exact le_refl 0
    · simp only [posQty_setPos_ne _ _ _ _ he]
      exact h2 sym2

theorem processSymbol_portfolioInv (env : Env) (henv : EnvOk env)
    (st : EngineState) (date : ℤ) (i : ℕ) (sym : String)
    (h : PortfolioInv st) :
    PortfolioInv (processSymbol env st date i sym) := by
  unfold processSymbol
  cases hmd : env.marketData.lookup sym with
  | none => exact h
  | some sd =>
    simp only
    cases hrow : sd.find? (fun b => b.date == date) with
    | none => exact h
    | some row =>
      have hclose : 0 ≤ row.close :=
        henv.2.2.2 (sym, sd) (lookup_mem _ _ _ hmd) row
          (List.mem_of_find?_eq_some hrow)
      simp only
      split
      · split
        · exact doBuy_portfolioInv env st sym date row.close h
        · exact h
      · split
        · split
          · exact doSell_portfolioInv env st sym date row.close henv.1
              henv.2.1 hclose h
          · exact h
        · exact h

theorem processDay_portfolioInv (env : Env) (henv : EnvOk env)
    (st : EngineState) (p : ℕ × Bar) (h : PortfolioInv st) :
    PortfolioInv (processDay env st p) := by
  unfold processDay
  have h1 : PortfolioInv (env.strategy.symbols.foldl
      (fun s sym => processSymbol env s p.2.date p.1 sym) st) :=
    foldlPreserves PortfolioInv _
      (fun s sym hs => processSymbol_portfolioInv env henv s p.2.date p.1 sym hs)
      env.strategy.symbols st h
  exact ⟨h1.1, h1.2⟩

/-! ## C1 -/

/-- C1: throughout a run, cash is never negative and every position quantity
is nonnegative (initially, after any number of simulated days, for the full
run, and across every per-symbol step), and any BUY trade appended by a
per-symbol step costs `quantity * price * (1 + commissionRate) ≤` the cash
held immediately before the step, where the recorded price is
`close * (1 + slippageRate)`. The `EnvOk` hypotheses require only that
commission and slippage are genuine percentages and closes are nonnegative. -/
theorem run_cash_position_invariant (env : Env) (henv : EnvOk env) :
    (∀ rows : List (ℕ × Bar), PortfolioInv (runDays env rows)) ∧
    PortfolioInv (executeBacktestState env) ∧
    (∀ st date i sym, PortfolioInv st →
      PortfolioInv (processSymbol env st date i sym)) ∧
    (∀ st date i sym (t : Trade),
      (processSymbol env st date i sym).trades = st.trades ++ [t] →
      t.type = "BUY" →
      (t.quantity : ℚ) * t.price * (1 + env.commissionRate) ≤ st.cash) := by
  have hinit : PortfolioInv (initState env) := by
    constructor
    · exact henv.2.2.1
    · intro sym
      simp [initState, posQty, List.lookup]
  have hruns : ∀ rows : List (ℕ × Bar), PortfolioInv (runDays env rows) := by
    intro rows
    exact foldlPreserves PortfolioInv _
      (fun s p hs => processDay_portfolioInv env henv s p hs) rows _ hinit
  refine ⟨hruns, hruns _, ?_, ?_⟩
  · intro st date i sym h
    exact processSymbol_portfolioInv env henv st date i sym h
  · intro st date i sym t hap hbuy
    unfold processSymbol at hap
    cases hmd : env.marketData.lookup sym with
    | none =>
      rw [hmd] at hap
      simp at hap
    | some sd =>
      rw [hmd] at hap
      simp only at hap
      cases hrow : sd.find? (fun b => b.date == date) with
      | none =>
        rw [hrow] at hap
        simp at hap
      | some row =>
        rw [hrow] at hap
        simp only at hap
        split at hap
        · split at hap
          · simp only [doBuy] at hap
            split at hap
            next hsh =>
              split at hap
              next hc =>
                have ht : t = _ := (List.cons.injEq _ _ _ _).mp
                  (List.append_cancel_left hap.symm) |>.1
                rw [ht]
                simpa using hc
              next => simp at hap
            next => simp at hap
          · simp at hap
        · split at hap
          · split at hap
            · simp only [doSell] at hap
              have ht : t = _ := (List.cons.injEq _ _ _ _).mp
                (List.append_cancel_left hap.symm) |>.1
              rw [ht] at hbuy
              simp at hbuy
            · simp at hap
          · simp at hap

/-- Witness for C1 at the concrete sample environment: the invariant holds
after running the sample bars. -/
theorem run_cash_position_invariant_witness :
    PortfolioInv (runDays sampleEnv
      [(0, mkBar 0 40), (1, mkBar 1 100), (2, mkBar 2 30), (3, mkBar 3 60)]) :=
  (run_cash_position_invariant sampleEnv
    ⟨by norm_num [sampleEnv], by norm_num [sampleEnv],
     by norm_num [sampleEnv], by decide⟩).1 _

/-! ## C2 -/

/-- C2: any SELL trade appended by a per-symbol step is for that symbol,
records exactly the full held quantity (which is positive), and leaves the
position at exactly 0 immediately afterwards: full-lot liquidation only, no
partial sells, no shorting. -/
theorem sell_full_liquidation (env : Env) (st : EngineState) (date : ℤ)
    (i : ℕ) (sym : String) (t : Trade)
    (hap : (processSymbol env st date i sym).trades = st.trades ++ [t])
    (ht : t.type = "SELL") :
    t.symbol = sym ∧ t.quantity = posQty st.positions sym ∧
    0 < t.quantity ∧
    posQty (processSymbol env st date i sym).positions sym = 0 := by
  unfold processSymbol at hap ⊢
  cases hmd : env.marketData.lookup sym with
  | none =>
    rw [hmd] at hap
    simp at hap
  | some sd =>
    rw [hmd] at hap
    simp only at hap ⊢
    cases hrow : sd.find? (fun b => b.date == date) with
    | none =>
      rw [hrow] at hap
      simp at hap
    | some row =>
      rw [hrow] at hap
      simp only at hap ⊢
      split at hap
      next hflat =>
        split at hap
        · simp only [doBuy] at hap
          split at hap
          · split at hap
            · have hteq : t = _ := ((List.cons.injEq _ _ _ _).mp
                (List.append_cancel_left hap.symm)).1
              rw [hteq] at ht
              simp at ht
            · simp at hap
          · simp at hap
        · simp at hap
      next hflat =>
        split at hap
        next hpos =>
          split at hap
          next hsig =>
            simp only [doSell] at hap
            have hteq : t = _ := ((List.cons.injEq _ _ _ _).mp
              (List.append_cancel_left hap.symm)).1
            rw [if_neg hflat, if_pos hpos, if_pos hsig]
            simp only [doSell]
            refine ⟨?_, ?_, ?_, ?_⟩
            · rw [hteq]
            · rw [hteq]
            · rw [hteq]
              exact hpos
            · exact posQty_setPos_self _ _ _
          next => simp at hap
        next => simp at hap

/-- Witness for C2: a concrete per-symbol step that liquidates a 10-share
position of `A` at close 30 (slippage 0) appends exactly this SELL trade. -/
theorem sell_full_liquidation_witness :
    ({ id := "trade_1", symbol := "A", type := "SELL", quantity := 10,
       price := 30 * (1 - 0), timestamp := 2, pnl := some 0,
       holdingPeriod := some 0 } : Trade).symbol = "A" ∧
    ({ id := "trade_1", symbol := "A", type := "SELL", quantity := 10,
       price := 30 * (1 - 0), timestamp := 2, pnl := some 0,
       holdingPeriod := some 0 } : Trade).quantity =
      posQty [("A", 10)] "A" ∧
    0 < ({ id := "trade_1", symbol := "A", type := "SELL", quantity := 10,
           price := 30 * (1 - 0), timestamp := 2, pnl := some 0,
           holdingPeriod := some 0 } : Trade).quantity ∧
    posQty (processSymbol sampleEnv ⟨0, [("A", 10)], [], []⟩ 2 2 "A").positions
      "A" = 0 :=
  sell_full_liquidation sampleEnv ⟨0, [("A", 10)], [], []⟩ 2 2 "A"
    { id := "trade_1", symbol := "A", type := "SELL", quantity := 10,
      price := 30 * (1 - 0), timestamp := 2, pnl := some 0,
      holdingPeriod := some 0 }
    (by rfl) rfl

/-! ## C5 -/

theorem pyTrunc_eq_floor (x : ℚ) (h : 0 ≤ x) : pyTrunc x = ⌊x⌋ := by
  unfold pyTrunc
  rw [if_pos h]

/-- C5: when a buy signal fires while the symbol is flat, the engine computes
`buyPrice = close·(1+slippageRate)` and buys exactly
`specShares = min(⌊cash/buyPrice⌋, ⌊initialCapital·pct/100/buyPrice⌋)`
shares, where `pct` is the strategy's risk-management max-position
percentage, defaulting to 100 when the risk-management block is absent. The
BUY trade (with exactly that quantity and price) is recorded iff the share
count is positive and `shares·buyPrice·(1+commissionRate) ≤ cash`; otherwise
the ledger is unchanged. -/
theorem buy_position_sizing (env : Env) (st : EngineState) (date : ℤ)
    (i : ℕ) (sym : String) (sd : List Bar) (row : Bar)
    (hmd : env.marketData.lookup sym = some sd)
    (hrow : sd.find? (fun b => b.date == date) = some row)
    (hflat : posQty st.positions sym = 0)
    (hsig : checkBuySignals env.strategy.buyConditions
      ((env.indicatorsData.lookup sym).getD []) i = true)
    (hcash : 0 ≤ st.cash) (hcap : 0 ≤ env.initialCapital)
    (hpct : 0 ≤ maxPositionOf env.strategy)
    (hprice : 0 < row.close * (1 + env.slippageRate)) :
    (env.strategy.riskManagement = none → maxPositionOf env.strategy = 100) ∧
    (0 < specShares st.cash env.initialCapital (maxPositionOf env.strategy)
        (row.close * (1 + env.slippageRate)) ∧
        (specShares st.cash env.initialCapital (maxPositionOf env.strategy)
            (row.close * (1 + env.slippageRate)) : ℚ) *
          (row.close * (1 + env.slippageRate)) * (1 + env.commissionRate) ≤
          st.cash →
      (processSymbol env st date i sym).trades = st.trades ++
        [{ id := tradeId (st.trades.length + 1), symbol := sym,
           type := "BUY",
           quantity := specShares st.cash env.initialCapital
             (maxPositionOf env.strategy)
             (row.close * (1 + env.slippageRate)),
           price := row.close * (1 + env.slippageRate),
           timestamp := date }]) ∧
    (¬(0 < specShares st.cash env.initialCapital (maxPositionOf env.strategy)
        (row.close * (1 + env.slippageRate)) ∧
        (specShares st.cash env.initialCapital (maxPositionOf env.strategy)
            (row.close * (1 + env.slippageRate)) : ℚ) *
          (row.close * (1 + env.slippageRate)) * (1 + env.commissionRate) ≤
          st.cash) →
      (processSymbol env st date i sym).trades = st.trades) := by
  have hps : processSymbol env st date i sym = doBuy env st sym date row.close := by
    unfold processSymbol
    rw [hmd]
    dsimp only
    rw [hrow]
    dsimp only
    rw [if_pos hflat, if_pos hsig]
  have e1 : pyTrunc (st.cash / (row.close * (1 + env.slippageRate))) =
      ⌊st.cash / (row.close * (1 + env.slippageRate))⌋ :=
    pyTrunc_eq_floor _ (div_nonneg hcash hprice.le)
  have e2 : pyTrunc (env.initialCapital * maxPositionOf env.strategy / 100 /
        (row.close * (1 + env.slippageRate))) =
      ⌊env.initialCapital * maxPositionOf env.strategy / 100 /
        (row.close * (1 + env.slippageRate))⌋ :=
    pyTrunc_eq_floor _
      (div_nonneg (div_nonneg (mul_nonneg hcap hpct) (by norm_num)) hprice.le)
  refine ⟨?_, ?_, ?_⟩
  · intro h
    simp [maxPositionOf, h]
  · intro hg
    obtain ⟨hpos, hcost⟩ := hg
    rw [hps]
    simp only [specShares] at hpos hcost ⊢
    simp only [doBuy, e1, e2]
    rw [if_pos hpos, if_pos hcost]
  · intro hn
    rw [hps]
    simp only [specShares] at hn
    simp only [doBuy, e1, e2]
    split
    next h1 =>
      split
      next h2 => exact absurd ⟨h1, h2⟩ hn
      next => rfl
    next => rfl

/-- Witness for C5: in the sample environment with 1000 cash and close 100,
the guard fires and the step appends the BUY of `specShares` = 10 shares. -/
theorem buy_position_sizing_witness :
    (processSymbol sampleEnv ⟨1000, [], [], []⟩ 1 1 "A").trades = [] ++
      [{ id := tradeId 1, symbol := "A", type := "BUY",
         quantity := specShares 1000 1000 (maxPositionOf sampleStrategy)
           ((mkBar 1 100).close * (1 + sampleEnv.slippageRate)),
         price := (mkBar 1 100).close * (1 + sampleEnv.slippageRate),
         timestamp := 1 }] :=
  (buy_position_sizing sampleEnv ⟨1000, [], [], []⟩ 1 1 "A" _ (mkBar 1 100)
    rfl rfl rfl rfl (by norm_num) (by norm_num [sampleEnv])
    (by norm_num [maxPositionOf, sampleStrategy, sampleEnv])
    (by norm_num [sampleEnv, mkBar])).2.1
    (by constructor
        · norm_num [specShares, maxPositionOf, sampleStrategy, sampleEnv, mkBar]
        · norm_num [specShares, maxPositionOf, sampleStrategy, sampleEnv, mkBar])

/-! ## C9 -/

theorem doBuy_ledgerInv (env : Env) (st : EngineState) (sym : String)
    (date : ℤ) (price : ℚ) (h : LedgerInv st) :
    LedgerInv (doBuy env st sym date price) := by
  simp only [doBuy]
  split
  next hsh =>
    split
    next hc =>
      intro sym2 hq
      simp only at hq ⊢
      by_cases he : sym2 = sym
      · subst he
        exact ⟨_, List.mem_append_right _ (List.mem_singleton_self _), rfl, rfl⟩
      · rw [posQty_setPos_ne _ _ _ _ he] at hq
        obtain ⟨t, ht, h1, h2⟩ := h sym2 hq
        exact ⟨t, List.mem_append_left _ ht, h1, h2⟩
    next => exact h
  next => exact h

theorem doSell_ledgerInv (env : Env) (st : EngineState) (sym : String)
    (date : ℤ) (price : ℚ) (h : LedgerInv st) :
    LedgerInv (doSell env st sym date price) := by
  intro sym2 hq
  simp only [doSell] at hq ⊢
  by_cases he : sym2 = sym
  · subst he
    rw [posQty_setPos_self] at hq
    exact absurd hq (by decide)
  · rw [posQty_setPos_ne _ _ _ _ he] at hq
    obtain ⟨t, ht, h1, h2⟩ := h sym2 hq
    exact ⟨t, List.mem_append_left _ ht, h1, h2⟩

theorem processSymbol_ledgerInv (env : Env) (st : EngineState) (date : ℤ)
    (i : ℕ) (sym : String) (h : LedgerInv st) :
    LedgerInv (processSymbol env st date i sym) := by
  unfold processSymbol
  cases hmd : env.marketData.lookup sym with
  | none => exact h
  | some sd =>
    simp only
    cases hrow : sd.find? (fun b => b.date == date) with
    | none => exact h
    | some row =>
      simp only
      split
      · split
        · exact doBuy_ledgerInv env st sym date row.close h
        · exact h
      · split
        · split
          · exact doSell_ledgerInv env st sym date row.close h
          · exact h
        · exact h

theorem processDay_ledgerInv (env : Env) (st : EngineState) (p : ℕ × Bar)
    (h : LedgerInv st) : LedgerInv (processDay env st p) := by
  unfold processDay
  have h1 : LedgerInv (env.strategy.symbols.foldl
      (fun s sym => processSymbol env s p.2.date p.1 sym) st) :=
    foldlPreserves LedgerInv _
      (fun s sym hs => processSymbol_ledgerInv env s p.2.date p.1 sym hs)
      env.strategy.symbols st h
  exact h1

/-- C9: in every state reachable by the run (after any number of days, and
for the full run) every symbol with a positive position has a BUY trade for
that symbol in the ledger; consequently, whenever the SELL branch runs (its
guard is a positive position), the backwards search for the most recent BUY
succeeds, so the `pnl = 0 / holdingPeriod = 0` fallback of the SELL branch is
unreachable. -/
theorem position_backed_by_buy_trade (env : Env) :
    (∀ rows : List (ℕ × Bar), LedgerInv (runDays env rows)) ∧
    LedgerInv (executeBacktestState env) ∧
    (∀ st sym, LedgerInv st → 0 < posQty st.positions sym →
      (st.trades.reverse.find?
        (fun t => t.symbol == sym && t.type == "BUY")).isSome = true) := by
  have hinit : LedgerInv (initState env) := by
    intro sym hq
    simp [initState, posQty, List.lookup] at hq
  have hruns : ∀ rows : List (ℕ × Bar), LedgerInv (runDays env rows) := by
    intro rows
    exact foldlPreserves LedgerInv _
      (fun s p hs => processDay_ledgerInv env s p hs) rows _ hinit
  refine ⟨hruns, hruns _, ?_⟩
  intro st sym h hq
  obtain ⟨t, ht, h1, h2⟩ := h sym hq
  rw [List.find?_isSome]
  exact ⟨t, List.mem_reverse.mpr ht, by simp [h1, h2]⟩

/-- Witness for C9: a 5-share position of `A` backed by a BUY trade makes the
backwards ledger search succeed. -/
theorem position_backed_by_buy_trade_witness :
    ((([{ id := "trade_1", symbol := "A", type := "BUY", quantity := 5,
          price := 100, timestamp := 1 }] : List Trade)).reverse.find?
      (fun t => t.symbol == "A" && t.type == "BUY")).isSome = true :=
  (position_backed_by_buy_trade sampleEnv).2.2
    ⟨0, [("A", 5)],
     [{ id := "trade_1", symbol := "A", type := "BUY", quantity := 5,
        price := 100, timestamp := 1 }], []⟩ "A"
    (by intro sym2 hq
        by_cases he : sym2 = "A"
        · subst he
          exact ⟨_, List.mem_singleton_self _, rfl, rfl⟩
        · have hb : (sym2 == "A") = false := by simp [he]
          simp only [posQty, List.lookup, hb] at hq
          exact absurd hq (by decide))
    (by decide)

end KisQuant
